import Mathlib

/-!
Shallow embedding of the Azure physical storage backend
(`physical/azure/azure.go`) and verification of its specification.

Go strings are modelled as `List Char`; byte slices as `List Nat`.
External collaborators (the azblob client, environment lookup, credential
construction) are modelled as oracle parameters: each remote call's outcome
is an `Except` value supplied to the operation, and the sequence of calls
actually issued is recorded in an `AzAction` trace.
-/

/-- A Go string, modelled as its character sequence. -/
abbrev Str := List Char

/-- `MaxBlobSize` from azure.go: 1024 * 1024 * 4. -/
def MaxBlobSize : Nat := 1024 * 1024 * 4

/-- `MaxListResults` from azure.go: 5000 (page size requested from the remote). -/
def MaxListResults : Nat := 5000

/-- Go `strings.TrimPrefix(s, pre)`: drop `pre` when it is a prefix of `s`,
otherwise return `s` unchanged. -/
def TrimPre (s pre : Str) : Str :=
  if pre.isPrefixOf s then s.drop pre.length else s

/-- Modelled from the spec: `strutil.AppendIfMissing` (from the repository's
sdk/helper/strutil package, not present under src/) — "add it as a directory
key, but only if not already present in the result". -/
def AppendIfMissing (keys : List Str) (x : Str) : List Str :=
  if x ∈ keys then keys else keys ++ [x]

/-- Go `strings.Index(s, c)` for a single-character needle: index of the
first occurrence of `c` in `s`, `none` when absent (Go returns -1). -/
def strIndex (s : Str) (c : Char) : Option Nat :=
  match s with
  | [] => none
  | a :: as => if a = c then some 0 else (strIndex as c).map (· + 1)

/-- Byte-wise lexicographic `≤` on strings, as used by Go's `sort.Strings`. -/
def strLeb : Str → Str → Bool
  | [], _ => true
  | _ :: _, [] => false
  | a :: as, b :: bs =>
    if a < b then true
    else if b < a then false
    else strLeb as bs

/-- The propositional form of `strLeb`. -/
def strLe (a b : Str) : Prop := strLeb a b = true

instance : DecidableRel strLe :=
  fun a b => inferInstanceAs (Decidable (strLeb a b = true))

/-- Go `sort.Strings`: sort a string slice lexicographically. -/
def sortStrings (l : List Str) : List Str := List.insertionSort strLe l

/-- Azure service error codes relevant to the backend
(`azblob.ServiceCodeBlobNotFound`, `azblob.ServiceCodeContainerNotFound`,
and everything else). -/
inductive ServiceCode where
  | blobNotFound
  | containerNotFound
  | other (code : Str)
deriving DecidableEq

/-- An error returned by a remote operation: either a structured
`azblob.StorageError` carrying a service code (the `errors.As` branch), or a
non-structured transport-level error. -/
inductive RemoteErr where
  | storage (code : ServiceCode)
  | transport (msg : Str)
deriving DecidableEq

/-- The backend operation names, used in wrapped error messages. -/
inductive Op where
  | put
  | get
  | delete
  | list
deriving DecidableEq

/-- Errors the backend returns to its caller. `remote` is an underlying
error returned bare (unmodified); `opWrapped` is `errwrap.Wrapf` with the
operation and blob key in the message; the remaining constructors are the
construction-time and local errors of azure.go. -/
inductive GoErr where
  | remote (e : RemoteErr)
  | opWrapped (op : Op) (key : Str) (e : RemoteErr)
  | ioErr (msg : Str)
  | sizeLimit
  | confMissing (field : Str)
  | envLookupURL (url : Str) (e : Str)
  | envLookupName (nm : Str) (e : Str)
  | credFailed (e : Str)
  | urlFailed (e : Str)
  | createFailed (container : Str) (e : RemoteErr)
  | propsFailed (container : Str) (e : RemoteErr)
  | maxParallelInvalid (s : Str)
deriving DecidableEq

/-- `physical.Entry`: a key/value pair. -/
structure Entry where
  key : Str
  value : List Nat
deriving DecidableEq

/-- Observable side effects of an operation, in order: permit-pool
acquisition/release and remote calls. -/
inductive AzAction where
  | acquire
  | release
  | upload
  | download
  | delete
  | listPage
  | getProperties
  | createContainer
deriving DecidableEq

/-- `AzureBackend.Put`: reject values of length ≥ `MaxBlobSize` before
acquiring a permit or touching the remote store; otherwise upload and
return the upload's error unmodified. The second component is the trace of
side effects. -/
def AzureBackend.Put (entry : Entry) (upload : Except RemoteErr Unit) :
    Option GoErr × List AzAction :=
  if MaxBlobSize ≤ entry.value.length then
    (some GoErr.sizeLimit, [])
  else
    match upload with
    | Except.ok _ => (none, [AzAction.acquire, AzAction.upload, AzAction.release])
    | Except.error e => (some (GoErr.remote e), [AzAction.acquire, AzAction.upload, AzAction.release])

/-- The result of a successful download: the bytes `ioutil.ReadAll` obtained
from the response body, and the error it returned (if any). -/
structure DownloadBody where
  data : List Nat
  readErr : Option Str
deriving DecidableEq

/-- `AzureBackend.Get`: blob-not-found becomes `(none, none)`; any other
structured error is wrapped with the operation and key; a non-structured
error is returned bare; on success the entry always carries the requested
key and whatever bytes the body read produced, together with the body
read's error. -/
def AzureBackend.Get (key : Str) (download : Except RemoteErr DownloadBody) :
    Option Entry × Option GoErr :=
  match download with
  | Except.error e =>
    match e with
    | RemoteErr.storage ServiceCode.blobNotFound => (none, none)
    | RemoteErr.storage _ => (none, some (GoErr.opWrapped Op.get key e))
    | RemoteErr.transport _ => (none, some (GoErr.remote e))
  | Except.ok body =>
    (some ⟨key, body.data⟩, body.readErr.map (fun m => GoErr.ioErr m))

/-- `AzureBackend.Delete`: blob-not-found becomes success; any other
structured error is wrapped with the operation and key; a non-structured
error is returned bare. -/
def AzureBackend.Delete (key : Str) (del : Except RemoteErr Unit) : Option GoErr :=
  match del with
  | Except.ok _ => none
  | Except.error e =>
    match e with
    | RemoteErr.storage ServiceCode.blobNotFound => none
    | RemoteErr.storage _ => some (GoErr.opWrapped Op.delete key e)
    | RemoteErr.transport _ => some (GoErr.remote e)

/-- The body of List's pagination loop for one object name: strip the
prefix; no '/' in the remainder → append as a leaf; otherwise truncate to
just after the first '/' and `AppendIfMissing` as a directory key. -/
def listAccum (pre : Str) (keys : List Str) (name : Str) : List Str :=
  let key := TrimPre name pre
  match strIndex key '/' with
  | none => keys ++ [key]
  | some i => AppendIfMissing keys (key.take (i + 1))

/-- One page of the remote flat-list operation: either its blob names or an
error. -/
abbrev Page := Except RemoteErr (List Str)

/-- List's pagination loop: consume pages until exhausted, accumulating
keys; an error page aborts with `(none, error)`; on completion the
accumulated keys are sorted. -/
def listPages (pre : Str) : List Str → List Page → Option (List Str) × Option RemoteErr
  | keys, [] => (some (sortStrings keys), none)
  | _, Except.error e :: _ => (none, some e)
  | keys, Except.ok names :: rest => listPages pre (names.foldl (listAccum pre) keys) rest

/-- `AzureBackend.List`: run the pagination loop starting from the empty
key accumulator. The remote's behaviour during this call is supplied as
the sequence of page results. -/
def AzureBackend.List (pre : Str) (pages : List Page) :
    Option (List Str) × Option RemoteErr :=
  listPages pre [] pages

/-- An `azure.Environment` descriptor; only the field azure.go uses. -/
structure AzEnv where
  storageEndpointSuffix : Str
deriving DecidableEq

/-- The constructed backend's resolved state (the fields of `AzureBackend`
plus the resolved configuration that determines them). -/
structure Backend where
  container : Str
  accountName : Str
  accountKey : Str
  environment : AzEnv
  maxParallel : Int
deriving DecidableEq

/-- The world a construction runs in: the process environment (`os.Getenv`,
empty string when unset), the configuration map, and the outcomes of the
external calls construction makes. -/
structure World where
  getenv : Str → Str
  conf : Str → Option Str
  envFromURL : Str → Except Str AzEnv
  envFromName : Str → Except Str AzEnv
  cred : Str → Str → Except Str Unit
  urlParse : Str → Except Str Unit
  getProperties : Except RemoteErr Unit
  createContainer : Except RemoteErr Unit

/-- Go `conf["k"]` on a `map[string]string`: empty string when absent. -/
def confGet (conf : Str → Option Str) (k : Str) : Str := (conf k).getD []

/-- Go `strconv.Atoi`: optional sign followed by at least one digit. -/
def Atoi (s : Str) : Option Int :=
  let core : Str → Option Nat := fun ds =>
    if ds = [] then none
    else if ds.all Char.isDigit then
      some (ds.foldl (fun n c => n * 10 + (c.toNat - 48)) 0)
    else none
  match s with
  | '+' :: rest => (core rest).map (fun n => (n : Int))
  | '-' :: rest => (core rest).map (fun n => -(n : Int))
  | rest => (core rest).map (fun n => (n : Int))

def envContainerVar : Str := "AZURE_BLOB_CONTAINER".data
def envAccountNameVar : Str := "AZURE_ACCOUNT_NAME".data
def envAccountKeyVar : Str := "AZURE_ACCOUNT_KEY".data
def envEnvironmentVar : Str := "AZURE_ENVIRONMENT".data
def envArmEndpointVar : Str := "AZURE_ARM_ENDPOINT".data
def keyContainer : Str := "container".data
def keyAccountName : Str := "accountName".data
def keyAccountKey : Str := "accountKey".data
def keyEnvironment : Str := "environment".data
def keyArmEndpoint : Str := "arm_endpoint".data
def keyMaxParallel : Str := "max_parallel".data
def azurePublicCloud : Str := "AzurePublicCloud".data

/-- azure.go's resolution pattern `v := os.Getenv(E); if v == "" { v = conf[K] }`:
the environment variable is consulted first, the config map is the fallback. -/
def resolveFirst (envVal confVal : Str) : Str :=
  if envVal = [] then confVal else envVal

def resolvedContainer (w : World) : Str :=
  resolveFirst (w.getenv envContainerVar) (confGet w.conf keyContainer)

def resolvedAccountName (w : World) : Str :=
  resolveFirst (w.getenv envAccountNameVar) (confGet w.conf keyAccountName)

def resolvedAccountKey (w : World) : Str :=
  resolveFirst (w.getenv envAccountKeyVar) (confGet w.conf keyAccountKey)

/-- The environment name: env var, then config, then `"AzurePublicCloud"`. -/
def resolvedEnvironmentName (w : World) : Str :=
  let e := resolveFirst (w.getenv envEnvironmentVar) (confGet w.conf keyEnvironment)
  if e = [] then azurePublicCloud else e

/-- The ARM endpoint URL: env var, then config; may stay empty. -/
def resolvedEnvironmentURL (w : World) : Str :=
  resolveFirst (w.getenv envArmEndpointVar) (confGet w.conf keyArmEndpoint)

/-- The `azure.Environment` lookup of azure.go: by URL when an endpoint was
resolved, otherwise by name; failures are wrapped with the lookup argument. -/
def lookupEnvironment (w : World) : Except GoErr AzEnv :=
  if resolvedEnvironmentURL w ≠ [] then
    (w.envFromURL (resolvedEnvironmentURL w)).mapError
      (fun e => GoErr.envLookupURL (resolvedEnvironmentURL w) e)
  else
    (w.envFromName (resolvedEnvironmentName w)).mapError
      (fun e => GoErr.envLookupName (resolvedEnvironmentName w) e)

/-- The container URL string `https://<account>.blob.<suffix>/<name>`. -/
def containerURLString (accountName : Str) (env : AzEnv) (name : Str) : Str :=
  "https://".data ++ accountName ++ ".blob.".data ++ env.storageEndpointSuffix
    ++ "/".data ++ name

/-- The probe-and-provision step of construction (`GetProperties`, and
`Create` on container-not-found). Returns the construction error when
fatal, `none` when construction proceeds, plus the remote calls issued.
A non-structured (transport) probe failure falls through the `errors.As`
check in the source and is ignored. -/
def probeContainer (w : World) (name : Str) : Option GoErr × List AzAction :=
  match w.getProperties with
  | Except.ok _ => (none, [AzAction.getProperties])
  | Except.error e =>
    match e with
    | RemoteErr.storage ServiceCode.containerNotFound =>
      match w.createContainer with
      | Except.ok _ => (none, [AzAction.getProperties, AzAction.createContainer])
      | Except.error ce =>
        (some (GoErr.createFailed name ce), [AzAction.getProperties, AzAction.createContainer])
    | RemoteErr.storage _ => (some (GoErr.propsFailed name e), [AzAction.getProperties])
    | RemoteErr.transport _ => (none, [AzAction.getProperties])

/-- The `max_parallel` parse: absent ⇒ 0; present but unparsable ⇒ error. -/
def parseMaxParallel (w : World) : Except GoErr Int :=
  match w.conf keyMaxParallel with
  | none => Except.ok 0
  | some s =>
    match Atoi s with
    | none => Except.error (GoErr.maxParallelInvalid s)
    | some n => Except.ok n

/-- `NewAzureBackend`: resolve configuration (environment first, config
fallback), look up the Azure environment, build credential and URL, probe
(and possibly create) the container, then parse `max_parallel`. The second
component is the trace of remote calls issued. -/
def NewAzureBackend (w : World) : Except GoErr Backend × List AzAction :=
  let name := resolvedContainer w
  if name = [] then (Except.error (GoErr.confMissing keyContainer), []) else
  let accountName := resolvedAccountName w
  if accountName = [] then (Except.error (GoErr.confMissing keyAccountName), []) else
  let accountKey := resolvedAccountKey w
  if accountKey = [] then (Except.error (GoErr.confMissing keyAccountKey), []) else
  match lookupEnvironment w with
  | Except.error ge => (Except.error ge, [])
  | Except.ok environment =>
    match w.cred accountName accountKey with
    | Except.error m => (Except.error (GoErr.credFailed m), [])
    | Except.ok _ =>
      match w.urlParse (containerURLString accountName environment name) with
      | Except.error m => (Except.error (GoErr.urlFailed m), [])
      | Except.ok _ =>
        match probeContainer w name with
        | (some ge, trace) => (Except.error ge, trace)
        | (none, trace) =>
          match parseMaxParallel w with
          | Except.error ge => (Except.error ge, trace)
          | Except.ok maxParInt =>
            (Except.ok ⟨name, accountName, accountKey, environment, maxParInt⟩, trace)

/-- A construction world where all required values come from the config map,
no environment variables are set, and every external call succeeds. -/
def baseWorld : World where
  getenv := fun _ => []
  conf := fun k =>
    if k = keyContainer then some "c".data
    else if k = keyAccountName then some "an".data
    else if k = keyAccountKey then some "ak".data
    else none
  envFromURL := fun _ => Except.ok ⟨"core.windows.net".data⟩
  envFromName := fun _ => Except.ok ⟨"core.windows.net".data⟩
  cred := fun _ _ => Except.ok ()
  urlParse := fun _ => Except.ok ()
  getProperties := Except.ok ()
  createContainer := Except.ok ()

/-- `baseWorld` with the container name also set in the environment, to a
value different from the config map's. -/
def worldEnvConf : World :=
  {baseWorld with getenv := fun k => if k = envContainerVar then "E".data else []}

/-- `baseWorld` with an empty config map (and no environment variables). -/
def worldEmptyConf : World := {baseWorld with conf := fun _ => none}

/-- `baseWorld` with `max_parallel = "abc"` added to the config map. -/
def worldBadMaxPar : World :=
  {baseWorld with conf := fun k =>
    if k = keyMaxParallel then some "abc".data else baseWorld.conf k}

/-- `baseWorld` whose container-existence probe fails with a non-structured
transport-level error. -/
def worldTransportProbe : World :=
  {baseWorld with getProperties := Except.error (RemoteErr.transport "boom".data)}

/-- `baseWorld` whose container-existence probe fails with a structured
storage error whose code is neither not-found variant. -/
def authFailedCode : ServiceCode := ServiceCode.other "AuthenticationFailed".data

def worldAuthProbe : World :=
  {baseWorld with getProperties := Except.error (RemoteErr.storage authFailedCode)}

instance {ε α : Type} [DecidableEq ε] [DecidableEq α] : DecidableEq (Except ε α) := fun a b =>
  match a, b with
  | Except.ok x, Except.ok y =>
    if h : x = y then isTrue (by rw [h]) else isFalse (fun hc => h (Except.ok.inj hc))
  | Except.error x, Except.error y =>
    if h : x = y then isTrue (by rw [h]) else isFalse (fun hc => h (Except.error.inj hc))
  | Except.ok _, Except.error _ => isFalse (fun hc => Except.noConfusion hc)
  | Except.error _, Except.ok _ => isFalse (fun hc => Except.noConfusion hc)

/-- If the page sequence starts with any number of successful pages followed
by a failing page, the loop aborts with that error and a nil key slice. -/
theorem listPages_error (pre : Str) (e : RemoteErr) (rest : List Page) :
    ∀ (okPages : List (List Str)) (keys : List Str),
      listPages pre keys (okPages.map Except.ok ++ Except.error e :: rest) = (none, some e)
  | [], _ => rfl
  | ns :: ps, keys => by
    simp only [List.map, List.cons_append, listPages]
    exact listPages_error pre e rest ps _

/-- When every page succeeds, the loop folds every returned name, in order,
into the accumulator and sorts the result. -/
theorem listPages_ok (pre : Str) :
    ∀ (pagesItems : List (List Str)) (keys : List Str),
      listPages pre keys (pagesItems.map Except.ok) =
        (some (sortStrings (pagesItems.flatten.foldl (listAccum pre) keys)), none)
  | [], keys => by simp [listPages]
  | ns :: ps, keys => by
    simp only [List.map, listPages, List.flatten_cons, List.foldl_append]
    exact listPages_ok pre ps _

/-- C2: when the remote store reports blob-not-found, `Get` returns
`(nil, nil)` and `Delete` returns `nil`, for every key; neither operation
surfaces not-found as an error. -/
theorem get_delete_translate_not_found (key : Str) :
    AzureBackend.Get key (Except.error (RemoteErr.storage ServiceCode.blobNotFound))
      = (none, none) ∧
    AzureBackend.Delete key (Except.error (RemoteErr.storage ServiceCode.blobNotFound))
      = none :=
  ⟨rfl, rfl⟩

/-- C3: a value of length ≥ `MaxBlobSize` makes `Put` fail immediately with
the size-limit error and an empty side-effect trace (no permit acquired, no
remote call); a shorter value passes the size check: the result is never
the size-limit error and the upload is issued. -/
theorem put_size_limit (entry : Entry) (upload : Except RemoteErr Unit) :
    (MaxBlobSize ≤ entry.value.length →
      AzureBackend.Put entry upload = (some GoErr.sizeLimit, [])) ∧
    (entry.value.length < MaxBlobSize →
      (AzureBackend.Put entry upload).1 ≠ some GoErr.sizeLimit ∧
      (AzureBackend.Put entry upload).2
        = [AzAction.acquire, AzAction.upload, AzAction.release]) := by
  constructor
  · intro h
    simp [AzureBackend.Put, h]
  · intro h
    have h' : ¬ MaxBlobSize ≤ entry.value.length := not_le.mpr h
    cases upload <;> simp [AzureBackend.Put, h']

theorem put_size_limit_witness :
    AzureBackend.Put ⟨['k'], List.replicate MaxBlobSize 0⟩ (Except.ok ())
      = (some GoErr.sizeLimit, []) ∧
    ((AzureBackend.Put ⟨['k'], [0]⟩ (Except.ok ())).1 ≠ some GoErr.sizeLimit ∧
     (AzureBackend.Put ⟨['k'], [0]⟩ (Except.ok ())).2
       = [AzAction.acquire, AzAction.upload, AzAction.release]) :=
  ⟨(put_size_limit ⟨['k'], List.replicate MaxBlobSize 0⟩ (Except.ok ())).1 (by simp),
   (put_size_limit ⟨['k'], [0]⟩ (Except.ok ())).2 (by norm_num [MaxBlobSize])⟩

/-- C9: if a page request fails during the pagination loop — after any
number of successful pages — `List` returns a nil key slice together with
the error; keys accumulated from earlier pages are discarded. -/
theorem list_page_failure_discards_keys (pre : Str) (okPages : List (List Str))
    (e : RemoteErr) (rest : List Page) :
    AzureBackend.List pre (okPages.map Except.ok ++ Except.error e :: rest)
      = (none, some e) :=
  listPages_error pre e rest okPages []

/-- C10: when the download succeeds but reading the response body fails,
`Get` returns a non-nil entry — the requested key with the partially read
bytes — together with a non-nil error. -/
theorem get_body_read_failure (key : Str) (data : List Nat) (m : Str) :
    AzureBackend.Get key (Except.ok ⟨data, some m⟩)
      = (some ⟨key, data⟩, some (GoErr.ioErr m)) ∧
    (AzureBackend.Get key (Except.ok ⟨data, some m⟩)).1 ≠ none ∧
    (AzureBackend.Get key (Except.ok ⟨data, some m⟩)).2 ≠ none := by
  refine ⟨rfl, ?_, ?_⟩ <;> simp [AzureBackend.Get]

/-- C8 counterexample: `Put` returns a structured non-not-found remote
failure bare — as `GoErr.remote`, not wrapped with operation and key
context — so the claim that all four operations wrap such failures is
false. -/
theorem put_returns_bare_error_cex :
    AzureBackend.Put ⟨['k'], [0]⟩
        (Except.error (RemoteErr.storage (ServiceCode.other ['X'])))
      = (some (GoErr.remote (RemoteErr.storage (ServiceCode.other ['X']))),
         [AzAction.acquire, AzAction.upload, AzAction.release]) ∧
    GoErr.remote (RemoteErr.storage (ServiceCode.other ['X']))
      ≠ GoErr.opWrapped Op.put ['k'] (RemoteErr.storage (ServiceCode.other ['X'])) :=
  ⟨by decide, by decide⟩

/-- C8 amended: only `Get` and `Delete` wrap a structured non-not-found
remote failure with the operation and key context; `Put` and `List`
return the remote failure to the caller unmodified (bare). -/
theorem remote_error_wrapping (key : Str) (code : ServiceCode) (entry : Entry)
    (e : RemoteErr) (pre : Str) (rest : List Page) :
    (code ≠ ServiceCode.blobNotFound →
      AzureBackend.Get key (Except.error (RemoteErr.storage code))
        = (none, some (GoErr.opWrapped Op.get key (RemoteErr.storage code))) ∧
      AzureBackend.Delete key (Except.error (RemoteErr.storage code))
        = some (GoErr.opWrapped Op.delete key (RemoteErr.storage code))) ∧
    (entry.value.length < MaxBlobSize →
      AzureBackend.Put entry (Except.error e)
        = (some (GoErr.remote e), [AzAction.acquire, AzAction.upload, AzAction.release])) ∧
    AzureBackend.List pre (Except.error e :: rest) = (none, some e) := by
  refine ⟨?_, ?_, rfl⟩
  · intro h
    cases code with
    | blobNotFound => exact absurd rfl h
    | containerNotFound => exact ⟨rfl, rfl⟩
    | other c => exact ⟨rfl, rfl⟩
  · intro h
    simp [AzureBackend.Put, not_le.mpr h]

theorem remote_error_wrapping_witness :
    (AzureBackend.Get ['k'] (Except.error (RemoteErr.storage (ServiceCode.other ['X'])))
        = (none, some (GoErr.opWrapped Op.get ['k'] (RemoteErr.storage (ServiceCode.other ['X'])))) ∧
     AzureBackend.Delete ['k'] (Except.error (RemoteErr.storage (ServiceCode.other ['X'])))
        = some (GoErr.opWrapped Op.delete ['k'] (RemoteErr.storage (ServiceCode.other ['X'])))) ∧
    AzureBackend.Put ⟨['k'], [0]⟩ (Except.error (RemoteErr.transport ['t']))
        = (some (GoErr.remote (RemoteErr.transport ['t'])),
           [AzAction.acquire, AzAction.upload, AzAction.release]) :=
  ⟨(remote_error_wrapping ['k'] (ServiceCode.other ['X']) ⟨['k'], [0]⟩
      (RemoteErr.transport ['t']) [] []).1 (by decide),
   (remote_error_wrapping ['k'] (ServiceCode.other ['X']) ⟨['k'], [0]⟩
      (RemoteErr.transport ['t']) [] []).2.1 (by decide)⟩

/-- `strIndex` is `none` exactly when the character is absent. -/
theorem strIndex_eq_none_iff (c : Char) : ∀ s : Str, strIndex s c = none ↔ c ∉ s
  | [] => by simp [strIndex]
  | a :: as => by
    by_cases h : a = c
    · subst h
      simp [strIndex]
    · simp only [strIndex, if_neg h, Option.map_eq_none', List.mem_cons,
        strIndex_eq_none_iff c as]
      exact ⟨fun hn hor => hor.elim (fun hc => h hc.symm) hn,
             fun hn m => hn (Or.inr m)⟩

/-- The index of the first occurrence: if `c` does not occur in `u`, the
first occurrence of `c` in `u ++ c :: v` is at position `u.length`. -/
theorem strIndex_first (c : Char) : ∀ (u v : Str), c ∉ u →
    strIndex (u ++ c :: v) c = some u.length
  | [], v, _ => by simp [strIndex]
  | a :: u, v, h => by
    have h1 : ¬ a = c := fun e => h (by simp [e])
    have h2 : c ∉ u := fun m => h (List.mem_cons_of_mem _ m)
    simp [strIndex, h1, strIndex_first c u v h2]

/-- Truncating `u ++ c :: v` to just after position `u.length` keeps `u`
and the delimiter and drops the rest. -/
theorem take_after_first (c : Char) : ∀ (u v : Str),
    (u ++ c :: v).take (u.length + 1) = u ++ [c]
  | [], v => by simp
  | a :: u, v => by
    simp only [List.cons_append, List.length_cons, List.take_succ_cons,
      take_after_first c u v]

/-- A `TrimPre` remainder equals the suffix when the prefix matches. -/
theorem append_trimPre {pre n : Str} (h : pre.isPrefixOf n = true) :
    pre ++ TrimPre n pre = n := by
  rw [TrimPre, if_pos h]
  obtain ⟨t, rfl⟩ := List.isPrefixOf_iff_prefix.mp h
  rw [List.drop_left]

/-- C1: for every object name, List strips the prefix from the name; a
remainder with no '/' is appended as a leaf key unchanged; a remainder
with a first '/' (written `u ++ '/' :: v` with `'/' ∉ u`) contributes the
truncation `u ++ ['/']` as a directory key only if not already present;
consequently for stored keys a, b/c, b/d, e/f/g, List("") returns
["a", "b/", "e/"] and List("b/") returns ["c", "d"]. -/
theorem list_key_translation (pre name : Str) (keys : List Str) :
    (('/' : Char) ∉ TrimPre name pre →
      listAccum pre keys name = keys ++ [TrimPre name pre]) ∧
    (∀ u v : Str, TrimPre name pre = u ++ '/' :: v → ('/' : Char) ∉ u →
      listAccum pre keys name =
        if u ++ ['/'] ∈ keys then keys else keys ++ [u ++ ['/']]) ∧
    AzureBackend.List []
        [Except.ok [['a'], ['b', '/', 'c'], ['b', '/', 'd'], ['e', '/', 'f', '/', 'g']]]
      = (some [['a'], ['b', '/'], ['e', '/']], none) ∧
    AzureBackend.List ['b', '/'] [Except.ok [['b', '/', 'c'], ['b', '/', 'd']]]
      = (some [['c'], ['d']], none) := by
  refine ⟨?_, ?_, by decide, by decide⟩
  · intro h
    simp [listAccum, (strIndex_eq_none_iff '/' (TrimPre name pre)).mpr h]
  · intro u v hkey hu
    simp only [listAccum, hkey, strIndex_first '/' u v hu, take_after_first,
      AppendIfMissing]

theorem list_key_translation_witness :
    listAccum [] [] ['x'] = [] ++ [['x']] ∧
    listAccum [] [['b', '/']] ['b', '/', 'c']
      = (if ['b'] ++ ['/'] ∈ [['b', '/']] then [['b', '/']]
         else [['b', '/']] ++ [['b'] ++ ['/']]) :=
  ⟨(list_key_translation [] ['x'] []).1 (by decide),
   (list_key_translation [] ['b', '/', 'c'] [['b', '/']]).2.1 ['b'] ['c']
     (by decide) (by decide)⟩

/-- `strLeb` is total. -/
theorem strLeb_total : ∀ a b : Str, strLeb a b = true ∨ strLeb b a = true
  | [], _ => Or.inl rfl
  | _ :: _, [] => Or.inr rfl
  | a :: as, b :: bs => by
    rcases lt_trichotomy a b with h | h | h
    · exact Or.inl (by simp [strLeb, h])
    · subst h
      rcases strLeb_total as bs with ih | ih
      · exact Or.inl (by simp [strLeb, ih])
      · exact Or.inr (by simp [strLeb, ih])
    · exact Or.inr (by simp [strLeb, h])

/-- `strLeb` is transitive. -/
theorem strLeb_trans : ∀ a b c : Str,
    strLeb a b = true → strLeb b c = true → strLeb a c = true
  | [], _, _, _, _ => rfl
  | _ :: _, [], _, hab, _ => by simp [strLeb] at hab
  | _ :: _, _ :: _, [], _, hbc => by simp [strLeb] at hbc
  | a :: as, b :: bs, c :: cs, hab, hbc => by
    simp only [strLeb] at hab hbc ⊢
    rcases lt_trichotomy a b with h1 | h1 | h1
    · rcases lt_trichotomy b c with h2 | h2 | h2
      · simp [lt_trans h1 h2]
      · subst h2
        simp [h1]
      · simp [asymm h2, h2] at hbc
    · subst h1
      simp only [lt_irrefl, if_false] at hab
      rcases lt_trichotomy a c with h2 | h2 | h2
      · simp [h2]
      · subst h2
        simp only [lt_irrefl, if_false] at hbc ⊢
        exact strLeb_trans as bs cs hab hbc
      · simp [asymm h2, h2] at hbc
    · simp [asymm h1, h1] at hab

/-- `sortStrings` produces a lexicographically sorted list. -/
theorem sortStrings_sorted (l : List Str) : List.Sorted strLe (sortStrings l) := by
  haveI : IsTotal Str strLe := ⟨fun a b => strLeb_total a b⟩
  haveI : IsTrans Str strLe := ⟨fun a b c h1 h2 => strLeb_trans a b c h1 h2⟩
  exact List.sorted_insertionSort strLe l

/-- `sortStrings` permutes its input. -/
theorem sortStrings_perm (l : List Str) : List.Perm (sortStrings l) l :=
  List.perm_insertionSort strLe l


/-- If the first occurrence of `c` is at `i`, then `c` occurs among the
first `i + 1` characters. -/
theorem strIndex_mem_take (c : Char) : ∀ (s : Str) (i : Nat),
    strIndex s c = some i → c ∈ s.take (i + 1)
  | [], i, h => by simp [strIndex] at h
  | a :: as, i, h => by
    by_cases ha : a = c
    · subst ha
      simp [List.take_succ_cons]
    · simp only [strIndex, if_neg ha, Option.map_eq_some'] at h
      obtain ⟨j, hj, rfl⟩ := h
      simp only [List.take_succ_cons, List.mem_cons]
      exact Or.inr (strIndex_mem_take c as j hj)

/-- The accumulator invariant of List's name-processing fold: starting from
a duplicate-free accumulator whose leaf keys all come from already-seen
names (`done`), folding distinct, prefix-matching, unseen names keeps the
accumulator duplicate-free (and every leaf key still comes from a seen
name). -/
theorem listAccum_fold_nodup (pre : Str) :
    ∀ (names keys done : List Str),
      (∀ n ∈ names, pre.isPrefixOf n = true) →
      names.Nodup →
      (∀ n ∈ names, n ∉ done) →
      keys.Nodup →
      (∀ k ∈ keys, ('/' : Char) ∉ k → pre ++ k ∈ done) →
      (names.foldl (listAccum pre) keys).Nodup ∧
      (∀ k ∈ names.foldl (listAccum pre) keys,
        ('/' : Char) ∉ k → pre ++ k ∈ done ++ names)
  | [], keys, done, _, _, _, hkn, hkd =>
    ⟨hkn, fun k hk hsl => by simpa using hkd k hk hsl⟩
  | n :: ns, keys, done, hpre, hnd, hseen, hkn, hkd => by
    have hpn : pre.isPrefixOf n = true := hpre n (List.mem_cons_self n ns)
    have hglue : pre ++ TrimPre n pre = n := append_trimPre hpn
    have hstep :
        (listAccum pre keys n).Nodup ∧
        (∀ k ∈ listAccum pre keys n, ('/' : Char) ∉ k → pre ++ k ∈ done ++ [n]) := by
      simp only [listAccum]
      cases hidx : strIndex (TrimPre n pre) '/' with
      | none =>
        have hns : ('/' : Char) ∉ TrimPre n pre :=
          (strIndex_eq_none_iff '/' (TrimPre n pre)).mp hidx
        have hfresh : TrimPre n pre ∉ keys := fun hmem =>
          hseen n (List.mem_cons_self n ns) (hglue ▸ hkd _ hmem hns)
        refine ⟨by simp [List.nodup_append, hkn, hfresh], ?_⟩
        intro k hk hsl
        rcases List.mem_append.mp hk with hk | hk
        · exact List.mem_append_left _ (hkd k hk hsl)
        · have hkeq : k = TrimPre n pre := by simpa using hk
          subst hkeq
          exact List.mem_append_right _ (by simp [hglue])
      | some i =>
        have hslash : ('/' : Char) ∈ (TrimPre n pre).take (i + 1) :=
          strIndex_mem_take '/' (TrimPre n pre) i hidx
        simp only [AppendIfMissing]
        by_cases hmem : (TrimPre n pre).take (i + 1) ∈ keys
        · rw [if_pos hmem]
          exact ⟨hkn, fun k hk hsl => List.mem_append_left _ (hkd k hk hsl)⟩
        · rw [if_neg hmem]
          refine ⟨by simp [List.nodup_append, hkn, hmem], ?_⟩
          intro k hk hsl
          rcases List.mem_append.mp hk with hk | hk
          · exact List.mem_append_left _ (hkd k hk hsl)
          · have hkeq : k = (TrimPre n pre).take (i + 1) := by simpa using hk
            exact absurd (hkeq ▸ hslash) hsl
    have hrec := listAccum_fold_nodup pre ns (listAccum pre keys n) (done ++ [n])
      (fun m hm => hpre m (List.mem_cons_of_mem _ hm))
      (List.Nodup.of_cons hnd)
      (fun m hm hmd => by
        rcases List.mem_append.mp hmd with hmd | hmd
        · exact hseen m (List.mem_cons_of_mem _ hm) hmd
        · have hmn : m = n := by simpa using hmd
          subst hmn
          exact (List.nodup_cons.mp hnd).1 hm)
      hstep.1 hstep.2
    refine ⟨by simpa using hrec.1, ?_⟩
    intro k hk hsl
    have hmem := hrec.2 k (by simpa using hk) hsl
    simpa [List.append_assoc] using hmem

/-- C4: for every prefix and every successful sequence of pages whose names
satisfy the remote list contract — each returned name extends the requested
prefix and object names are unique across the whole listing — the key list
returned by List is lexicographically sorted and contains no duplicates. -/
theorem list_sorted_nodup (pre : Str) (pagesItems : List (List Str))
    (hpre : ∀ ns ∈ pagesItems, ∀ n ∈ ns, pre.isPrefixOf n = true)
    (hnd : pagesItems.flatten.Nodup) :
    ∃ ks, AzureBackend.List pre (pagesItems.map Except.ok) = (some ks, none) ∧
      List.Sorted strLe ks ∧ ks.Nodup := by
  refine ⟨sortStrings (pagesItems.flatten.foldl (listAccum pre) []),
    listPages_ok pre pagesItems [], sortStrings_sorted _, ?_⟩
  have h := listAccum_fold_nodup pre pagesItems.flatten [] []
    (fun n hn => by
      obtain ⟨ns, hns, hn'⟩ := List.mem_flatten.mp hn
      exact hpre ns hns n hn')
    hnd (by simp) (by simp) (by simp)
  exact (sortStrings_perm _).nodup_iff.mpr h.1

theorem list_sorted_nodup_witness :
    ∃ ks, AzureBackend.List ['b', '/']
        (([[['b', '/', 'c'], ['b', '/', 'd']]] : List (List Str)).map Except.ok)
      = (some ks, none) ∧ List.Sorted strLe ks ∧ ks.Nodup :=
  list_sorted_nodup ['b', '/'] [[['b', '/', 'c'], ['b', '/', 'd']]]
    (by decide) (by decide)

/-- Once the three required values resolve and the environment, credential
and URL steps succeed, construction is determined by the container probe
and the `max_parallel` parse. -/
theorem NewAzureBackend_probe_phase (w : World) (env : AzEnv)
    (h1 : resolvedContainer w ≠ [])
    (h2 : resolvedAccountName w ≠ [])
    (h3 : resolvedAccountKey w ≠ [])
    (h4 : lookupEnvironment w = Except.ok env)
    (h5 : w.cred (resolvedAccountName w) (resolvedAccountKey w) = Except.ok ())
    (h6 : w.urlParse
      (containerURLString (resolvedAccountName w) env (resolvedContainer w)) = Except.ok ()) :
    NewAzureBackend w =
      (match probeContainer w (resolvedContainer w) with
       | (some ge, trace) => (Except.error ge, trace)
       | (none, trace) =>
         match parseMaxParallel w with
         | Except.error ge => (Except.error ge, trace)
         | Except.ok n =>
           (Except.ok ⟨resolvedContainer w, resolvedAccountName w,
              resolvedAccountKey w, env, n⟩, trace)) := by
  simp only [NewAzureBackend, if_neg h1, if_neg h2, if_neg h3, h4, h5, h6]

/-- `Except.mapError` does not affect whether (and with which value) a
computation succeeded. -/
theorem exceptMapError_eq_ok {ε ε' α : Type} (f : ε → ε') (x : Except ε α) (v : α) :
    x.mapError f = Except.ok v ↔ x = Except.ok v := by
  cases x <;> simp [Except.mapError]

/-- Whenever construction succeeds, the backend's identity fields are the
resolved configuration values, and its Azure environment descriptor is the
result of the (environment-first) environment lookup. -/
theorem NewAzureBackend_ok (w : World) (b : Backend) (trace : List AzAction)
    (h : NewAzureBackend w = (Except.ok b, trace)) :
    b.container = resolvedContainer w ∧ b.accountName = resolvedAccountName w ∧
    b.accountKey = resolvedAccountKey w ∧
    lookupEnvironment w = Except.ok b.environment := by
  by_cases h1 : resolvedContainer w = []
  · simp [NewAzureBackend, h1] at h
  by_cases h2 : resolvedAccountName w = []
  · simp [NewAzureBackend, h1, h2] at h
  by_cases h3 : resolvedAccountKey w = []
  · simp [NewAzureBackend, h1, h2, h3] at h
  rcases henv : lookupEnvironment w with ge | env
  · simp [NewAzureBackend, h1, h2, h3, henv] at h
  rcases hcred : w.cred (resolvedAccountName w) (resolvedAccountKey w) with m | u
  · simp [NewAzureBackend, h1, h2, h3, henv, hcred] at h
  cases u
  rcases hurl : w.urlParse
      (containerURLString (resolvedAccountName w) env (resolvedContainer w)) with m | u2
  · simp [NewAzureBackend, h1, h2, h3, henv, hcred, hurl] at h
  cases u2
  rcases hprobe : probeContainer w (resolvedContainer w) with ⟨og, trace2⟩
  cases og with
  | some ge => simp [NewAzureBackend, h1, h2, h3, henv, hcred, hurl, hprobe] at h
  | none =>
    rcases hpar : parseMaxParallel w with ge | npar
    · simp [NewAzureBackend, h1, h2, h3, henv, hcred, hurl, hprobe, hpar] at h
    · simp only [NewAzureBackend, if_neg h1, if_neg h2, if_neg h3, henv, hcred, hurl,
        hprobe, hpar, Prod.mk.injEq, Except.ok.injEq] at h
      obtain ⟨hb, -⟩ := h
      subst hb
      exact ⟨rfl, rfl, rfl, rfl⟩

/-- C5 amended: each of the five configuration values is resolved from the
corresponding environment variable first, falling back to the explicit
config map only when the environment value is empty; construction fails
when one of the required values (container, accountName, accountKey) is
missing from both; of a successfully constructed backend, the identity
fields carry the environment-first resolutions, and the Azure environment
descriptor is obtained by URL when the environment-first endpoint
resolution is non-empty, otherwise by the environment-first environment
name (defaulting to AzurePublicCloud when missing from both). -/
theorem construction_env_first (w : World) :
    (resolvedContainer w = [] →
      NewAzureBackend w = (Except.error (GoErr.confMissing keyContainer), [])) ∧
    (resolvedContainer w ≠ [] → resolvedAccountName w = [] →
      NewAzureBackend w = (Except.error (GoErr.confMissing keyAccountName), [])) ∧
    (resolvedContainer w ≠ [] → resolvedAccountName w ≠ [] → resolvedAccountKey w = [] →
      NewAzureBackend w = (Except.error (GoErr.confMissing keyAccountKey), [])) ∧
    (∀ b trace, NewAzureBackend w = (Except.ok b, trace) →
      b.container = resolveFirst (w.getenv envContainerVar) (confGet w.conf keyContainer) ∧
      b.accountName = resolveFirst (w.getenv envAccountNameVar) (confGet w.conf keyAccountName) ∧
      b.accountKey = resolveFirst (w.getenv envAccountKeyVar) (confGet w.conf keyAccountKey)) ∧
    (∀ b trace, NewAzureBackend w = (Except.ok b, trace) →
      (if resolveFirst (w.getenv envArmEndpointVar) (confGet w.conf keyArmEndpoint) = []
       then w.envFromName
         (if resolveFirst (w.getenv envEnvironmentVar) (confGet w.conf keyEnvironment) = []
          then azurePublicCloud
          else resolveFirst (w.getenv envEnvironmentVar) (confGet w.conf keyEnvironment))
       else w.envFromURL
         (resolveFirst (w.getenv envArmEndpointVar) (confGet w.conf keyArmEndpoint)))
        = Except.ok b.environment) := by
  refine ⟨?_, ?_, ?_, ?_, ?_⟩
  · intro h
    simp [NewAzureBackend, h]
  · intro h1 h2
    simp [NewAzureBackend, h1, h2]
  · intro h1 h2 h3
    simp [NewAzureBackend, h1, h2, h3]
  · intro b trace h
    obtain ⟨hc, hn, hk, -⟩ := NewAzureBackend_ok w b trace h
    exact ⟨hc, hn, hk⟩
  · intro b trace h
    have henv := (NewAzureBackend_ok w b trace h).2.2.2
    rw [lookupEnvironment] at henv
    by_cases hurl : resolvedEnvironmentURL w = []
    · rw [if_neg (fun hc => hc hurl), exceptMapError_eq_ok] at henv
      rw [if_pos (show resolveFirst (w.getenv envArmEndpointVar)
            (confGet w.conf keyArmEndpoint) = [] from hurl)]
      exact henv
    · rw [if_pos hurl, exceptMapError_eq_ok] at henv
      rw [if_neg (show ¬ resolveFirst (w.getenv envArmEndpointVar)
            (confGet w.conf keyArmEndpoint) = [] from hurl)]
      exact henv

/-- C5 counterexample: with the container name set both in the environment
(to "E") and in the config map (to "c"), the constructed backend is bound
to the environment value — resolution is environment-first, not
explicit-config-first. -/
theorem config_first_cex :
    worldEnvConf.getenv envContainerVar = "E".data ∧
    confGet worldEnvConf.conf keyContainer = "c".data ∧
    (NewAzureBackend worldEnvConf).1
      = Except.ok ⟨"E".data, "an".data, "ak".data, ⟨"core.windows.net".data⟩, 0⟩ ∧
    "E".data ≠ "c".data :=
  ⟨by decide, by decide, by decide, by decide⟩

theorem construction_env_first_witness :
    NewAzureBackend worldEmptyConf
      = (Except.error (GoErr.confMissing keyContainer), []) ∧
    (if resolveFirst (baseWorld.getenv envArmEndpointVar)
          (confGet baseWorld.conf keyArmEndpoint) = []
     then baseWorld.envFromName
       (if resolveFirst (baseWorld.getenv envEnvironmentVar)
             (confGet baseWorld.conf keyEnvironment) = []
        then azurePublicCloud
        else resolveFirst (baseWorld.getenv envEnvironmentVar)
          (confGet baseWorld.conf keyEnvironment))
     else baseWorld.envFromURL
       (resolveFirst (baseWorld.getenv envArmEndpointVar)
         (confGet baseWorld.conf keyArmEndpoint)))
      = Except.ok (⟨"core.windows.net".data⟩ : AzEnv) :=
  ⟨(construction_env_first worldEmptyConf).1 (by decide),
   (construction_env_first baseWorld).2.2.2.2
     ⟨"c".data, "an".data, "ak".data, ⟨"core.windows.net".data⟩, 0⟩
     [AzAction.getProperties] (by decide)⟩

/-- C6 amended: with `max_parallel` present but not a valid integer (and
construction otherwise reaching the parse), construction fails with the
configuration error — but only after the container-existence probe, a
remote call, has already been issued. -/
theorem max_parallel_invalid_fails_after_probe (w : World) (env : AzEnv) (s : Str)
    (h1 : resolvedContainer w ≠ [])
    (h2 : resolvedAccountName w ≠ [])
    (h3 : resolvedAccountKey w ≠ [])
    (h4 : lookupEnvironment w = Except.ok env)
    (h5 : w.cred (resolvedAccountName w) (resolvedAccountKey w) = Except.ok ())
    (h6 : w.urlParse
      (containerURLString (resolvedAccountName w) env (resolvedContainer w)) = Except.ok ())
    (h7 : w.getProperties = Except.ok ())
    (hs : w.conf keyMaxParallel = some s)
    (ha : Atoi s = none) :
    NewAzureBackend w
      = (Except.error (GoErr.maxParallelInvalid s), [AzAction.getProperties]) ∧
    AzAction.getProperties ∈ (NewAzureBackend w).2 := by
  rw [NewAzureBackend_probe_phase w env h1 h2 h3 h4 h5 h6]
  simp [probeContainer, h7, parseMaxParallel, hs, ha]

/-- C6 counterexample: under `max_parallel = "abc"` construction does fail
with the configuration error, but the remote-call trace is non-empty — the
container probe has already run, refuting "before any remote call is
made". -/
theorem max_parallel_before_remote_cex :
    NewAzureBackend worldBadMaxPar
      = (Except.error (GoErr.maxParallelInvalid "abc".data), [AzAction.getProperties]) ∧
    (NewAzureBackend worldBadMaxPar).2 ≠ [] :=
  ⟨by decide, by decide⟩

theorem max_parallel_invalid_witness :
    NewAzureBackend worldBadMaxPar
      = (Except.error (GoErr.maxParallelInvalid "abc".data), [AzAction.getProperties]) ∧
    AzAction.getProperties ∈ (NewAzureBackend worldBadMaxPar).2 :=
  max_parallel_invalid_fails_after_probe worldBadMaxPar
    ⟨"core.windows.net".data⟩ "abc".data
    (by decide) (by decide) (by decide) (by decide) (by decide) (by decide)
    (by decide) (by decide) (by decide)

/-- C7 amended: a structured probe failure whose reason code is not
container-not-found is fatal to construction; a non-structured
transport-level probe failure, however, is silently ignored —
construction proceeds exactly as if the probe had succeeded. -/
theorem probe_failure_handling (w : World) (env : AzEnv)
    (h1 : resolvedContainer w ≠ [])
    (h2 : resolvedAccountName w ≠ [])
    (h3 : resolvedAccountKey w ≠ [])
    (h4 : lookupEnvironment w = Except.ok env)
    (h5 : w.cred (resolvedAccountName w) (resolvedAccountKey w) = Except.ok ())
    (h6 : w.urlParse
      (containerURLString (resolvedAccountName w) env (resolvedContainer w)) = Except.ok ()) :
    (∀ code, code ≠ ServiceCode.containerNotFound →
      w.getProperties = Except.error (RemoteErr.storage code) →
      NewAzureBackend w
        = (Except.error (GoErr.propsFailed (resolvedContainer w) (RemoteErr.storage code)),
           [AzAction.getProperties])) ∧
    (∀ m, w.getProperties = Except.error (RemoteErr.transport m) →
      NewAzureBackend w = NewAzureBackend {w with getProperties := Except.ok ()}) := by
  constructor
  · intro code hcode h7
    rw [NewAzureBackend_probe_phase w env h1 h2 h3 h4 h5 h6]
    cases code with
    | blobNotFound => simp [probeContainer, h7]
    | containerNotFound => exact absurd rfl hcode
    | other c => simp [probeContainer, h7]
  · intro m h7
    rw [NewAzureBackend_probe_phase w env h1 h2 h3 h4 h5 h6,
        NewAzureBackend_probe_phase {w with getProperties := Except.ok ()} env h1 h2 h3 h4 h5 h6]
    simp [probeContainer, h7, parseMaxParallel, resolvedContainer,
      resolvedAccountName, resolvedAccountKey]

/-- C7 counterexample: a non-structured transport-level probe failure does
not fail construction — the error falls through the structured-error check
and a usable backend is returned. -/
theorem transport_probe_ignored_cex :
    worldTransportProbe.getProperties = Except.error (RemoteErr.transport "boom".data) ∧
    NewAzureBackend worldTransportProbe
      = (Except.ok ⟨"c".data, "an".data, "ak".data, ⟨"core.windows.net".data⟩, 0⟩,
         [AzAction.getProperties]) :=
  ⟨by decide, by decide⟩

theorem probe_failure_handling_witness :
    NewAzureBackend worldAuthProbe
      = (Except.error (GoErr.propsFailed (resolvedContainer worldAuthProbe)
           (RemoteErr.storage authFailedCode)),
         [AzAction.getProperties]) :=
  (probe_failure_handling worldAuthProbe ⟨"core.windows.net".data⟩
      (by decide) (by decide) (by decide) (by decide) (by decide) (by decide)).1
    authFailedCode (by decide) (by decide)
